import Mathlib

/-!
Verification of the classification core of the olympics data-quality pipeline
(`src/split_quarantine.py`, `src/check_integrity.py`).

The embedding models pandas string columns as `List (Option String)` (a cell is
`none` when it is NA/NaN) and a table row as a structure of optional fields.
Python `str.strip` / `str.upper` are modelled on `String` via its character
list, restricted to ASCII (the data in scope is ASCII country codes and
enumerated labels).
-/

namespace OlympicsDQ

/-- Whitespace recognised by Python `str.strip` (ASCII model): space, tab,
newline, carriage return, vertical tab, form feed. -/
def isPySpace (c : Char) : Bool :=
  c.toNat == 32 || c.toNat == 9 || c.toNat == 10 || c.toNat == 13 ||
  c.toNat == 11 || c.toNat == 12

/-- Python `str.upper` on one character (ASCII model): map a lowercase letter
to its uppercase form, leave every other character unchanged. -/
def upperChar (c : Char) : Char :=
  if 97 ≤ c.toNat && c.toNat ≤ 122 then Char.ofNat (c.toNat - 32) else c

/-- Python `s.strip()`: drop leading and trailing whitespace. -/
def pyStrip (s : String) : String :=
  ⟨((s.data.dropWhile isPySpace).reverse.dropWhile isPySpace).reverse⟩

/-- Python `s.upper()` (ASCII model). -/
def pyUpper (s : String) : String :=
  ⟨s.data.map upperChar⟩

/-- The composite normalization applied to a single code value:
strip surrounding whitespace, then uppercase. -/
def normStr (s : String) : String := pyUpper (pyStrip s)

/-- Normalization of one optional cell: NA is preserved. -/
def normCode (x : Option String) : Option String := x.map normStr

/-- Core trimming operation on character lists. -/
def trimChars (l : List Char) : List Char :=
  ((l.dropWhile isPySpace).reverse.dropWhile isPySpace).reverse


/-! ## Embedding of `src/split_quarantine.py` -/

namespace SplitQuarantine

/-- `_normalize_code_series`: `astype("string")` keeps NA as NA, then two pandas
passes `.str.strip()` and `.str.upper()`, each of which preserves NA. -/
def normalizeCodeSeries (s : List (Option String)) : List (Option String) :=
  (s.map (Option.map pyStrip)).map (Option.map pyUpper)

/-- Python-dict insertion: overwrite the value if the key exists
(keeping its position), otherwise append the pair. -/
def dictInsert (m : List (String × String)) (kv : String × String) :
    List (String × String) :=
  if m.any (fun p => p.1 == kv.1) then
    m.map (fun p => if p.1 == kv.1 then kv else p)
  else m ++ [kv]

/-- `dict(zip(keys, values))`: later occurrences of a key overwrite earlier ones. -/
def dictOfPairs (l : List (String × String)) : List (String × String) :=
  l.foldl dictInsert []

/-- `_load_code_map`: normalize both columns, `fillna("")` both sides before
zipping into a dict, then `pop("")` removes the blank key.  A row is modelled
as its `(from_code, to_code)` cells. -/
def loadCodeMap (rows : List (Option String × Option String)) : List (String × String) :=
  let fromCol := normalizeCodeSeries (rows.map (fun r => r.1))
  let toCol := normalizeCodeSeries (rows.map (fun r => r.2))
  let pairs := List.zip (fromCol.map (fun x => x.getD "")) (toCol.map (fun x => x.getD ""))
  (dictOfPairs pairs).filter (fun p => p.1 != "")

/-- `Series.replace(mapping)` on one cell: a non-null value equal to a key of the
mapping is replaced by the key's value; anything else (including NA) is unchanged. -/
def replaceVal (m : List (String × String)) (x : Option String) : Option String :=
  match x with
  | none => none
  | some c =>
    match m.find? (fun p => p.1 == c) with
    | some p => some p.2
    | none => some c

/-- `_apply_mapping` restricted to the `Code` column (the only column the
function changes): normalize, then rewrite through the mapping. -/
def applyMapping (m : List (String × String)) (code : List (Option String)) :
    List (Option String) :=
  (normalizeCodeSeries code).map (replaceVal m)

/-- `_first_reason` evaluated at one row: fold over the (mask, label) pairs in
order, recording a label only where the mask holds and no reason is set yet. -/
def firstReason (masks : List (Bool × String)) : Option String :=
  masks.foldl (fun reason ml => if ml.1 && reason.isNone then some ml.2 else reason) none

/-- A fact ("Summer") row: `Year` plus the nine string columns, each cell optional. -/
structure SummerRow where
  year : Option Int
  city : Option String
  sport : Option String
  discipline : Option String
  athlete : Option String
  code : Option String
  gender : Option String
  event : Option String
  medal : Option String
  country : Option String
deriving DecidableEq

/-- A reference ("Countries") row, restricted to the two columns the
classifier reads (`Population`/`GDP per Capita` never affect classification). -/
structure CountryRow where
  country : Option String
  code : Option String
deriving DecidableEq

/-- `isna | strip == ""`: the blank-or-absent test used for required string columns. -/
def isBlank (x : Option String) : Bool :=
  match x with
  | none => true
  | some s => pyStrip s == ""

/-- `Series.map(dict)` on one cell: NA if the cell is NA or the key is absent. -/
def lookupOpt (m : List (String × String)) (x : Option String) : Option String :=
  match x with
  | none => none
  | some c => (m.find? (fun p => p.1 == c)).map (fun p => p.2)

/-- Lines 154-173 of `split_summer`: normalize `Code`, strip `Gender`, `Medal`
and `Country`, then backfill a blank `Country` from the code-to-country lookup. -/
def prepareSummer (codeToCountry : List (String × String)) (r : SummerRow) : SummerRow :=
  let code := normCode r.code
  let gender := r.gender.map pyStrip
  let medal := r.medal.map pyStrip
  let country0 := r.country.map pyStrip
  let country := if isBlank country0 then lookupOpt codeToCountry code else country0
  { r with code := code, gender := gender, medal := medal, country := country }

/-- `missing_required` for fact rows: `Year` null, or any of the nine required
string columns null/blank (in the column order of `SUMMER_REQUIRED_COLS`). -/
def missingRequired (r : SummerRow) : Bool :=
  r.year.isNone || isBlank r.city || isBlank r.sport || isBlank r.discipline ||
  isBlank r.athlete || isBlank r.code || isBlank r.gender || isBlank r.event ||
  isBlank r.medal || isBlank r.country

/-- `CODE_REGEX = r"^[A-Z]{3}$"`: exactly three uppercase ASCII letters. -/
def codeFormatOk (c : String) : Bool :=
  c.data.length == 3 && c.data.all (fun ch => 65 ≤ ch.toNat && ch.toNat ≤ 90)

/-- `invalid_code_format`: code null, or fails the three-uppercase-letters regex. -/
def invalidCodeFormat (r : SummerRow) : Bool :=
  match r.code with
  | none => true
  | some c => !codeFormatOk c

/-- `invalid_medal`: not a member of `VALID_MEDALS` (NA counts as invalid). -/
def invalidMedal (r : SummerRow) : Bool :=
  match r.medal with
  | none => true
  | some m => !(m == "Gold" || m == "Silver" || m == "Bronze")

/-- `invalid_gender`: not a member of `VALID_GENDERS` (NA counts as invalid). -/
def invalidGender (r : SummerRow) : Bool :=
  match r.gender with
  | none => true
  | some g => !(g == "Men" || g == "Women")

/-- `invalid_year`: unparseable/missing year, or outside `[1896, current_year]`. -/
def invalidYear (currentYear : Int) (r : SummerRow) : Bool :=
  match r.year with
  | none => true
  | some y => y < 1896 || y > currentYear

/-- Line 205: `df["Code"].isna() | ~df["Code"].isin(countries_codes)`, the bare
referential predicate before any suppression. -/
def codeNotInCountriesRaw (codes : List String) (r : SummerRow) : Bool :=
  match r.code with
  | none => true
  | some c => !codes.contains c

/-- Line 208: the referential predicate with `missing_required` rows suppressed. -/
def codeNotInCountries (codes : List String) (r : SummerRow) : Bool :=
  codeNotInCountriesRaw codes r && !missingRequired r

/-- The quarantine reason `split_summer` assigns to one row (lines 210-228). -/
def summerReason (codes : List String) (codeToCountry : List (String × String))
    (currentYear : Int) (r : SummerRow) : Option String :=
  let p := prepareSummer codeToCountry r
  firstReason
    [(missingRequired p, "missing_required"),
     (invalidCodeFormat p && !missingRequired p, "invalid_code_format"),
     (invalidMedal p && !missingRequired p, "invalid_medal"),
     (invalidYear currentYear p && !missingRequired p, "invalid_year"),
     (invalidGender p && !missingRequired p, "invalid_gender"),
     (codeNotInCountries codes p, "code_not_in_countries")]

/-- `split_summer`: pairs each prepared row with its `quarantine_reason` and
partitions on whether the reason is set. -/
def splitSummer (codes : List String) (codeToCountry : List (String × String))
    (currentYear : Int) (rows : List SummerRow) :
    List (SummerRow × Option String) × List (SummerRow × Option String) :=
  let tagged := rows.map (fun r =>
    (prepareSummer codeToCountry r, summerReason codes codeToCountry currentYear r))
  (tagged.filter (fun t => t.2.isNone), tagged.filter (fun t => t.2.isSome))

/-- Line 114 of `split_countries`: normalize the `Code` column. -/
def prepareCountry (r : CountryRow) : CountryRow :=
  { r with code := normCode r.code }

/-- `missing_required` for reference rows: `Country` or `Code` null/blank. -/
def countryMissingRequired (r : CountryRow) : Bool :=
  isBlank r.country || isBlank r.code

/-- `invalid_code_format` for reference rows. -/
def countryInvalidCodeFormat (r : CountryRow) : Bool :=
  match r.code with
  | none => true
  | some c => !codeFormatOk c

/-- The quarantine reason `split_countries` assigns to one row (lines 135-138). -/
def countryReason (r : CountryRow) : Option String :=
  let p := prepareCountry r
  firstReason
    [(countryMissingRequired p, "missing_required"),
     (countryInvalidCodeFormat p, "invalid_code_format")]

/-- `split_countries`: pairs each prepared row with its `quarantine_reason` and
partitions on whether the reason is set. -/
def splitCountries (rows : List CountryRow) :
    List (CountryRow × Option String) × List (CountryRow × Option String) :=
  let tagged := rows.map (fun r => (prepareCountry r, countryReason r))
  (tagged.filter (fun t => t.2.isNone), tagged.filter (fun t => t.2.isSome))

/-- Lines 262-277 of `main`: build the code-to-country lookup from the CLEAN
countries partition (normalize `Code` again, strip `Country`, `fillna("")`,
drop the `""` key), then hardcode the historical entry `"BOH" -> "Bohemia"`. -/
def buildCodeToCountry (rows : List CountryRow) : List (String × String) :=
  let clean := (splitCountries rows).1
  let pairs := clean.map (fun t =>
    ((normCode t.1.code).getD "", ((t.1.country).map pyStrip).getD ""))
  let d := (dictOfPairs pairs).filter (fun p => p.1 != "")
  dictInsert d ("BOH", "Bohemia")

/-- Line 277 of `main`: `countries_codes = set(code_to_country.keys())`. -/
def countriesCodes (rows : List CountryRow) : List String :=
  (buildCodeToCountry rows).map (fun p => p.1)

end SplitQuarantine

/-! ## Embedding of `src/check_integrity.py` -/

namespace CheckIntegrity

/-- `normalize_code_series` (check_integrity variant): mask the non-null cells
and apply `astype(str).str.strip().str.upper()` to them; NA cells untouched. -/
def normalizeCodeSeries (s : List (Option String)) : List (Option String) :=
  s.map (fun x =>
    match x with
    | none => none
    | some v => some (pyUpper (pyStrip v)))

/-- Key equality as Python dict / pandas `replace` see it for this column:
NaN keys match NaN cells, string keys match equal strings. -/
def optKeyEq (a b : Option String) : Bool :=
  match a, b with
  | none, none => true
  | some x, some y => x == y
  | _, _ => false

/-- Python-dict insertion over possibly-NA keys. -/
def dictInsertOpt (m : List (Option String × Option String))
    (kv : Option String × Option String) : List (Option String × Option String) :=
  if m.any (fun p => optKeyEq p.1 kv.1) then
    m.map (fun p => if optKeyEq p.1 kv.1 then kv else p)
  else m ++ [kv]

/-- `dict(zip(keys, values))` over possibly-NA keys. -/
def dictOfPairsOpt (l : List (Option String × Option String)) :
    List (Option String × Option String) :=
  l.foldl dictInsertOpt []

/-- `load_code_map`: normalize both columns and zip them into a dict.  Unlike
`_load_code_map` in split_quarantine.py, nothing is dropped: a blank
`from_code` survives as the key `""` and a null one as a NaN key. -/
def loadCodeMap (rows : List (Option String × Option String)) :
    List (Option String × Option String) :=
  dictOfPairsOpt
    (List.zip (normalizeCodeSeries (rows.map (fun r => r.1)))
              (normalizeCodeSeries (rows.map (fun r => r.2))))

/-- `Series.replace(mapping)` for a mapping whose keys may be NA. -/
def replaceValOpt (m : List (Option String × Option String)) (x : Option String) :
    Option String :=
  match m.find? (fun p => optKeyEq p.1 x) with
  | some p => p.2
  | none => x

/-- pandas `!=` on object cells: NaN compares unequal to everything,
including another NaN. -/
def pandasNe (a b : Option String) : Bool :=
  match a, b with
  | some x, some y => x != y
  | _, _ => true

/-- The harmonized `Code` column of `find_bad_code_rows`: normalize, then, when
a (non-empty) code map is supplied, rewrite through it. -/
def harmonizedCodes (summer : List (Option String))
    (codeMap : Option (List (Option String × Option String))) : List (Option String) :=
  let s := normalizeCodeSeries summer
  match codeMap with
  | none => s
  | some m => if m.isEmpty then s else s.map (replaceValOpt m)

/-- `mapped_count = int((summer["Code_raw"] != summer["Code"]).sum())`, computed
only when a non-empty code map is supplied (`if code_map:`). -/
def mappedCount (summer : List (Option String))
    (codeMap : Option (List (Option String × Option String))) : Nat :=
  match codeMap with
  | none => 0
  | some m =>
    if m.isEmpty then 0
    else
      let s := normalizeCodeSeries summer
      (List.zip s (s.map (replaceValOpt m))).countP (fun p => pandasNe p.1 p.2)

/-- `valid_codes = set(countries["Code"].dropna().unique())` (membership is all
that is consumed downstream). -/
def validCodes (countries : List (Option String)) : List String :=
  ((normalizeCodeSeries countries).filterMap id).dedup

/-- `code_is_null` for one cell. -/
def isNullCode (x : Option String) : Bool := x.isNone

/-- `code_not_in = ~summer["Code"].isin(valid_codes)` for one cell
(`isin` is false on NA, so NA cells satisfy `code_not_in`). -/
def notInValid (valid : List String) (x : Option String) : Bool :=
  match x with
  | none => true
  | some c => !valid.contains c

/-- `HISTORICAL_CODE_ALLOWLIST = {"BOH"}`. -/
def HISTORICAL_CODE_ALLOWLIST : List String := ["BOH"]

/-- `FAIL_ON_NULL_CODES = False`. -/
def FAIL_ON_NULL_CODES : Bool := false

/-- The summary fields of `find_bad_code_rows` that the claims consult. -/
structure IntegritySummary where
  summerRowsTotal : Nat
  countriesRowsTotal : Nat
  validCountryCodesCount : Nat
  mappedRowsCount : Nat
  badRowsTotal : Nat
  badRowsNullCode : Nat
  badRowsCodeNotInCountries : Nat
  uniqueBadCodes : List String
  badRowsCodeNotInCountriesStrict : Nat
  uniqueBadCodesStrict : List String
  shouldFail : Bool
deriving DecidableEq

/-- `find_bad_code_rows`, restricted to the `Code` columns of the two tables:
returns the bad-row codes and the summary. -/
def findBadCodeRows (summer countries : List (Option String))
    (codeMap : Option (List (Option String × Option String))) :
    List (Option String) × IntegritySummary :=
  let s := harmonizedCodes summer codeMap
  let valid := validCodes countries
  let badRows := s.filter (fun x => isNullCode x || notInValid valid x)
  let badNull := s.countP isNullCode
  let badNotIn := s.countP (fun x => !isNullCode x && notInValid valid x)
  let uniqueBad := ((badRows.filterMap id).dedup).mergeSort (fun a b => decide (a ≤ b))
  let strictList := uniqueBad.filter (fun c => !HISTORICAL_CODE_ALLOWLIST.contains c)
  let strictCount := strictList.length
  (badRows,
   { summerRowsTotal := s.length
     countriesRowsTotal := countries.length
     validCountryCodesCount := valid.length
     mappedRowsCount := mappedCount summer codeMap
     badRowsTotal := badRows.length
     badRowsNullCode := badNull
     badRowsCodeNotInCountries := badNotIn
     uniqueBadCodes := uniqueBad
     badRowsCodeNotInCountriesStrict := strictCount
     uniqueBadCodesStrict := strictList
     shouldFail := (FAIL_ON_NULL_CODES && decide (0 < badNull)) || decide (0 < strictCount) })

end CheckIntegrity

/-! ## Concrete inputs and spec-side descriptions used by the claim theorems -/

/-- A fact row with `Year = 1850` and an invalid medal, every required field
present and non-blank, a well-formed code, and a valid gender. -/
def row1850Platinum : SplitQuarantine.SummerRow :=
  { year := some 1850, city := some "Athens", sport := some "Aquatics",
    discipline := some "Swimming", athlete := some "SMITH, Alice",
    code := some "USA", gender := some "Men", event := some "100m",
    medal := some "Platinum", country := some "United States" }

/-- A fact row with `Year = 1850` and every other field valid. -/
def row1850Gold : SplitQuarantine.SummerRow :=
  { year := some 1850, city := some "Athens", sport := some "Aquatics",
    discipline := some "Swimming", athlete := some "SMITH, Alice",
    code := some "USA", gender := some "Men", event := some "100m",
    medal := some "Gold", country := some "United States" }

/-- Spec-side description for the amended C4: the number of DISTINCT non-null
harmonized codes that are absent from the reference codes and outside the
historical allowlist (a per-code count, unlike the per-row lenient count). -/
def strictDistinctUnmatchedCodes (summer countries : List (Option String))
    (codeMap : Option (List (Option String × Option String))) : Nat :=
  (((CheckIntegrity.harmonizedCodes summer codeMap).filterMap id).filter
      (fun c => !(CheckIntegrity.validCodes countries).contains c &&
                !(CheckIntegrity.HISTORICAL_CODE_ALLOWLIST.contains c))).dedup.length


/-! ## String-primitive lemmas -/

theorem upperChar_toNat (c : Char) :
    (upperChar c).toNat =
      if 97 ≤ c.toNat && c.toNat ≤ 122 then c.toNat - 32 else c.toNat := by
  unfold upperChar
  split
  · rename_i h
    simp only [Bool.and_eq_true, decide_eq_true_eq] at h
    unfold Char.ofNat
    split
    · rfl
    · rename_i h2
      exact absurd (Or.inl (by omega)) h2
  · rfl

theorem upperChar_not_lower (c : Char) :
    (97 ≤ (upperChar c).toNat && (upperChar c).toNat ≤ 122) = false := by
  have ht := upperChar_toNat c
  by_cases h : (97 ≤ c.toNat && c.toNat ≤ 122) = true
  · rw [if_pos h] at ht
    simp only [Bool.and_eq_true, decide_eq_true_eq] at h
    rw [Bool.eq_false_iff]
    simp only [ne_eq, Bool.and_eq_true, decide_eq_true_eq, ht, not_and, not_le]
    intro h97
    omega
  · rw [if_neg h] at ht
    rw [Bool.eq_false_iff]
    intro hc
    rw [ht] at hc
    exact h hc

theorem upperChar_eq_of_not_lower (d : Char)
    (h : (97 ≤ d.toNat && d.toNat ≤ 122) = false) : upperChar d = d := by
  unfold upperChar
  rw [if_neg (by rw [h]; exact Bool.false_ne_true)]

theorem upperChar_idem (c : Char) : upperChar (upperChar c) = upperChar c :=
  upperChar_eq_of_not_lower (upperChar c) (upperChar_not_lower c)

theorem isPySpace_upperChar (c : Char) : isPySpace (upperChar c) = isPySpace c := by
  have ht := upperChar_toNat c
  by_cases h : (97 ≤ c.toNat && c.toNat ≤ 122) = true
  · rw [if_pos h] at ht
    simp only [Bool.and_eq_true, decide_eq_true_eq] at h
    unfold isPySpace
    rw [ht, Bool.eq_iff_iff]
    simp only [Bool.or_eq_true, beq_iff_eq]
    constructor <;> intro hx <;> omega
  · rw [if_neg h] at ht
    unfold isPySpace
    rw [ht]

theorem dropWhile_map_comm (f : Char → Char) (p : Char → Bool)
    (hp : ∀ c, p (f c) = p c) (l : List Char) :
    (l.map f).dropWhile p = (l.dropWhile p).map f := by
  induction l with
  | nil => rfl
  | cons a l ih =>
    by_cases h : p a = true
    · simp [List.dropWhile, hp, h, ih]
    · simp only [Bool.not_eq_true] at h
      simp [List.dropWhile, hp, h]

theorem dropWhile_idem (p : Char → Bool) (l : List Char) :
    (l.dropWhile p).dropWhile p = l.dropWhile p := by
  induction l with
  | nil => rfl
  | cons a l ih =>
    by_cases h : p a = true
    · simp [List.dropWhile, h, ih]
    · simp only [Bool.not_eq_true] at h
      simp [List.dropWhile, h]

theorem dropWhile_append_singleton (p : Char → Bool) (a : Char) (ha : p a = false)
    (l : List Char) : (l ++ [a]).dropWhile p = l.dropWhile p ++ [a] := by
  induction l with
  | nil => simp [List.dropWhile, ha]
  | cons b l ih =>
    by_cases h : p b = true
    · simp [List.dropWhile, h, ih]
    · simp only [Bool.not_eq_true] at h
      simp [List.dropWhile, h]

/-- The head of `l.dropWhile p` never satisfies `p`. -/
theorem dropWhile_head_false (p : Char → Bool) (l : List Char) (a : Char)
    (t : List Char) (h : l.dropWhile p = a :: t) : p a = false := by
  induction l with
  | nil => simp [List.dropWhile] at h
  | cons b l ih =>
    by_cases hb : p b = true
    · simp only [List.dropWhile, hb] at h
      exact ih h
    · simp only [Bool.not_eq_true] at hb
      simp only [List.dropWhile, hb] at h
      cases h
      exact hb


theorem pyStrip_data (s : String) : pyStrip s = ⟨trimChars s.data⟩ := rfl

theorem trimChars_dropWhile (l : List Char) :
    (trimChars l).dropWhile isPySpace = trimChars l := by
  unfold trimChars
  cases hu : l.dropWhile isPySpace with
  | nil => simp
  | cons a t =>
    have ha : isPySpace a = false := dropWhile_head_false _ _ _ _ hu
    simp only [List.reverse_cons]
    rw [dropWhile_append_singleton _ _ ha]
    simp only [List.reverse_append, List.reverse_cons, List.reverse_nil, List.nil_append,
      List.singleton_append]
    simp [List.dropWhile, ha]

theorem trimChars_idem (l : List Char) : trimChars (trimChars l) = trimChars l := by
  have h1 : (trimChars l).dropWhile isPySpace = trimChars l := trimChars_dropWhile l
  show (((trimChars l).dropWhile isPySpace).reverse.dropWhile isPySpace).reverse = trimChars l
  rw [h1]
  unfold trimChars
  rw [List.reverse_reverse, dropWhile_idem]

theorem pyStrip_idem (s : String) : pyStrip (pyStrip s) = pyStrip s := by
  rw [pyStrip_data, pyStrip_data]
  exact congrArg String.mk (trimChars_idem s.data)

theorem pyUpper_idem (s : String) : pyUpper (pyUpper s) = pyUpper s := by
  unfold pyUpper
  refine congrArg String.mk ?_
  simp only [List.map_map]
  exact List.map_congr_left (fun c _ => upperChar_idem c)

theorem trimChars_map_upper (l : List Char) :
    trimChars (l.map upperChar) = (trimChars l).map upperChar := by
  unfold trimChars
  rw [dropWhile_map_comm _ _ isPySpace_upperChar, ← List.map_reverse,
    dropWhile_map_comm _ _ isPySpace_upperChar, ← List.map_reverse]

theorem pyStrip_pyUpper (s : String) : pyStrip (pyUpper s) = pyUpper (pyStrip s) := by
  rw [pyStrip_data, pyUpper, pyStrip_data]
  exact congrArg String.mk (trimChars_map_upper s.data)

theorem normStr_idem (s : String) : normStr (normStr s) = normStr s := by
  unfold normStr
  rw [pyStrip_pyUpper, pyUpper_idem, pyStrip_idem]

theorem normCode_idem (x : Option String) : normCode (normCode x) = normCode x := by
  cases x with
  | none => rfl
  | some s => simp [normCode, normStr_idem]

/-! ## Claim theorems -/

/-- C7: code normalization returns a same-length sequence in which every
non-null value is replaced by its whitespace-trimmed upper-cased form and every
null passes through unchanged (both implementations agree); it is idempotent,
and normalizing `"  usa "` yields `"USA"`. -/
theorem C7_normalization (l : List (Option String)) :
    (SplitQuarantine.normalizeCodeSeries l).length = l.length
  ∧ SplitQuarantine.normalizeCodeSeries l =
      l.map (fun x => Option.elim x none (fun s => some (pyUpper (pyStrip s))))
  ∧ CheckIntegrity.normalizeCodeSeries l = SplitQuarantine.normalizeCodeSeries l
  ∧ SplitQuarantine.normalizeCodeSeries (SplitQuarantine.normalizeCodeSeries l) =
      SplitQuarantine.normalizeCodeSeries l
  ∧ SplitQuarantine.normalizeCodeSeries [some "  usa "] = [some "USA"] := by
  refine ⟨?_, ?_, ?_, ?_, ?_⟩
  · simp [SplitQuarantine.normalizeCodeSeries]
  · simp only [SplitQuarantine.normalizeCodeSeries, List.map_map]
    refine List.map_congr_left fun x _ => ?_
    cases x <;> rfl
  · simp only [CheckIntegrity.normalizeCodeSeries, SplitQuarantine.normalizeCodeSeries,
      List.map_map]
    refine List.map_congr_left fun x _ => ?_
    cases x <;> rfl
  · simp only [SplitQuarantine.normalizeCodeSeries, List.map_map]
    refine List.map_congr_left fun x _ => ?_
    cases x with
    | none => rfl
    | some s =>
      show some (normStr (normStr s)) = some (normStr s)
      exact congrArg some (normStr_idem s)
  · rfl

/-- C1: the reason `split_summer` assigns to a row is the label of the
highest-priority failing predicate under the fixed order missing_required,
invalid_code_format, invalid_medal, invalid_year, invalid_gender,
code_not_in_countries; exactly one reason is recorded per quarantined row,
rows matching an earlier predicate never receive a later label, and reasons
are never combined. -/
theorem C1_single_reason_priority (codes : List String)
    (codeToCountry : List (String × String)) (currentYear : Int)
    (r : SplitQuarantine.SummerRow) :
    SplitQuarantine.summerReason codes codeToCountry currentYear r =
      (if SplitQuarantine.missingRequired (SplitQuarantine.prepareSummer codeToCountry r) then
        some "missing_required"
      else if SplitQuarantine.invalidCodeFormat (SplitQuarantine.prepareSummer codeToCountry r) then
        some "invalid_code_format"
      else if SplitQuarantine.invalidMedal (SplitQuarantine.prepareSummer codeToCountry r) then
        some "invalid_medal"
      else if SplitQuarantine.invalidYear currentYear (SplitQuarantine.prepareSummer codeToCountry r) then
        some "invalid_year"
      else if SplitQuarantine.invalidGender (SplitQuarantine.prepareSummer codeToCountry r) then
        some "invalid_gender"
      else if SplitQuarantine.codeNotInCountriesRaw codes (SplitQuarantine.prepareSummer codeToCountry r) then
        some "code_not_in_countries"
      else none) := by
  unfold SplitQuarantine.summerReason SplitQuarantine.firstReason
  cases hm : SplitQuarantine.missingRequired (SplitQuarantine.prepareSummer codeToCountry r) <;>
    cases h1 : SplitQuarantine.invalidCodeFormat (SplitQuarantine.prepareSummer codeToCountry r) <;>
    cases h2 : SplitQuarantine.invalidMedal (SplitQuarantine.prepareSummer codeToCountry r) <;>
    cases h3 : SplitQuarantine.invalidYear currentYear (SplitQuarantine.prepareSummer codeToCountry r) <;>
    cases h4 : SplitQuarantine.invalidGender (SplitQuarantine.prepareSummer codeToCountry r) <;>
    cases h5 : SplitQuarantine.codeNotInCountriesRaw codes (SplitQuarantine.prepareSummer codeToCountry r) <;>
    simp [SplitQuarantine.codeNotInCountries, hm, h1, h2, h3, h4, h5]

theorem partitionByReason {α : Type} (l : List (α × Option String)) :
    (l.filter (fun t => t.2.isNone)).length + (l.filter (fun t => t.2.isSome)).length = l.length
  ∧ List.Perm (l.filter (fun t => t.2.isNone) ++ l.filter (fun t => t.2.isSome)) l
  ∧ ∀ t, t ∈ l.filter (fun t => t.2.isNone) → t ∉ l.filter (fun t => t.2.isSome) := by
  have hflip : l.filter (fun t => t.2.isSome) = l.filter (fun t => !t.2.isNone) := by
    refine List.filter_congr fun t _ => ?_
    cases t.2 <;> rfl
  have hperm : List.Perm (l.filter (fun t => t.2.isNone) ++ l.filter (fun t => t.2.isSome)) l := by
    rw [hflip]
    exact List.filter_append_perm _ l
  refine ⟨?_, hperm, ?_⟩
  · have := hperm.length_eq
    rwa [List.length_append] at this
  · intro t h1 h2
    have e1 : t.2.isNone = true := (List.mem_filter.mp h1).2
    have e2 : t.2.isSome = true := (List.mem_filter.mp h2).2
    cases ht : t.2 with
    | none => rw [ht] at e2; exact Bool.false_ne_true e2
    | some v => rw [ht] at e1; exact Bool.false_ne_true e1

/-- C3: both `split_countries` and `split_summer` partition their input —
the clean and quarantine sizes sum to the input size, the two outputs together
are a permutation of the classified input rows (nothing dropped or
duplicated), and the partitions are disjoint. -/
theorem C3_partition_completeness (codes : List String)
    (codeToCountry : List (String × String)) (currentYear : Int)
    (rows : List SplitQuarantine.SummerRow)
    (crows : List SplitQuarantine.CountryRow) :
    ((SplitQuarantine.splitSummer codes codeToCountry currentYear rows).1.length +
        (SplitQuarantine.splitSummer codes codeToCountry currentYear rows).2.length = rows.length)
  ∧ List.Perm
      ((SplitQuarantine.splitSummer codes codeToCountry currentYear rows).1 ++
        (SplitQuarantine.splitSummer codes codeToCountry currentYear rows).2)
      (rows.map (fun r => (SplitQuarantine.prepareSummer codeToCountry r,
        SplitQuarantine.summerReason codes codeToCountry currentYear r)))
  ∧ (∀ t, t ∈ (SplitQuarantine.splitSummer codes codeToCountry currentYear rows).1 →
        t ∉ (SplitQuarantine.splitSummer codes codeToCountry currentYear rows).2)
  ∧ ((SplitQuarantine.splitCountries crows).1.length +
        (SplitQuarantine.splitCountries crows).2.length = crows.length)
  ∧ List.Perm
      ((SplitQuarantine.splitCountries crows).1 ++ (SplitQuarantine.splitCountries crows).2)
      (crows.map (fun r => (SplitQuarantine.prepareCountry r, SplitQuarantine.countryReason r)))
  ∧ (∀ t, t ∈ (SplitQuarantine.splitCountries crows).1 →
        t ∉ (SplitQuarantine.splitCountries crows).2) := by
  have hs := partitionByReason (rows.map (fun r =>
    (SplitQuarantine.prepareSummer codeToCountry r,
      SplitQuarantine.summerReason codes codeToCountry currentYear r)))
  have hc := partitionByReason (crows.map (fun r =>
    (SplitQuarantine.prepareCountry r, SplitQuarantine.countryReason r)))
  refine ⟨?_, hs.2.1, hs.2.2, ?_, hc.2.1, hc.2.2⟩
  · have := hs.1
    rwa [List.length_map] at this
  · have := hc.1
    rwa [List.length_map] at this

/-- C5 counterexample: a fact row with Year = 1850, no required field blank and
a well-formed code, but an invalid medal, is quarantined as `invalid_medal`,
not `invalid_year` — refuting the claim that the year defect wins regardless of
any other field defect. -/
theorem C5_counterexample :
    SplitQuarantine.summerReason ["USA"] [] 2026 row1850Platinum = some "invalid_medal"
  ∧ row1850Platinum.year = some 1850
  ∧ SplitQuarantine.missingRequired (SplitQuarantine.prepareSummer [] row1850Platinum) = false := by
  refine ⟨by decide, rfl, by decide⟩

/-- C5 amended: a fact row whose Year is 1850 is quarantined with reason
`invalid_year` provided additionally that its code format and medal are valid —
defects that rank below the year (gender, referential failure) are still
overridden, but `invalid_code_format` and `invalid_medal` rank above it. -/
theorem C5_amended (codes : List String) (codeToCountry : List (String × String))
    (currentYear : Int) (r : SplitQuarantine.SummerRow)
    (hy : (SplitQuarantine.prepareSummer codeToCountry r).year = some 1850)
    (hm : SplitQuarantine.missingRequired (SplitQuarantine.prepareSummer codeToCountry r) = false)
    (hc : SplitQuarantine.invalidCodeFormat (SplitQuarantine.prepareSummer codeToCountry r) = false)
    (hmed : SplitQuarantine.invalidMedal (SplitQuarantine.prepareSummer codeToCountry r) = false) :
    SplitQuarantine.summerReason codes codeToCountry currentYear r = some "invalid_year" := by
  have hyv : SplitQuarantine.invalidYear currentYear
      (SplitQuarantine.prepareSummer codeToCountry r) = true := by
    unfold SplitQuarantine.invalidYear
    rw [hy]
    simp
  unfold SplitQuarantine.summerReason SplitQuarantine.firstReason
  simp [List.foldl, hm, hc, hmed, hyv]

/-- C5 witness: an otherwise-valid 1850 row is indeed quarantined as `invalid_year`. -/
theorem C5_witness :
    SplitQuarantine.summerReason ["USA"] [] 2026 row1850Gold = some "invalid_year" :=
  C5_amended ["USA"] [] 2026 row1850Gold (by decide) (by decide) (by decide) (by decide)

theorem normalizeCodeSeries_map_normCode (l : List (Option String)) :
    SplitQuarantine.normalizeCodeSeries l = l.map normCode := by
  simp only [SplitQuarantine.normalizeCodeSeries, List.map_map]
  refine List.map_congr_left fun x _ => ?_
  cases x <;> rfl

/-- C6 counterexample: with the chained mapping {A→B, B→C}, exactly as
`_load_code_map` builds it, applying `_apply_mapping` twice rewrites "A" all
the way to "C" while applying it once stops at "B" — so two applications are
not the same as one. -/
theorem C6_counterexample :
    SplitQuarantine.applyMapping
        (SplitQuarantine.loadCodeMap [(some "A", some "B"), (some "B", some "C")])
        (SplitQuarantine.applyMapping
          (SplitQuarantine.loadCodeMap [(some "A", some "B"), (some "B", some "C")])
          [some "A"]) ≠
      SplitQuarantine.applyMapping
        (SplitQuarantine.loadCodeMap [(some "A", some "B"), (some "B", some "C")])
        [some "A"] := by
  decide

/-- C6 amended: every code absent from the mapping keys is a fixed point of the
rewrite, and applying the harmonization step twice equals applying it once
PROVIDED the mapping is single-hop closed — its values are normalized and no
value is mapped onward to a different code (as happens for a chained mapping). -/
theorem C6_amended (m : List (String × String))
    (hnorm : ∀ p ∈ m, normStr p.2 = p.2)
    (hstable : ∀ p ∈ m, ∀ q, m.find? (fun e => e.1 == p.2) = some q → q.2 = p.2)
    (code : List (Option String)) :
    SplitQuarantine.applyMapping m (SplitQuarantine.applyMapping m code) =
      SplitQuarantine.applyMapping m code
  ∧ ∀ c : String, m.find? (fun e => e.1 == c) = none →
      SplitQuarantine.replaceVal m (some c) = some c := by
  have happ : ∀ l : List (Option String), SplitQuarantine.applyMapping m l =
      l.map (fun x => SplitQuarantine.replaceVal m (normCode x)) := by
    intro l
    unfold SplitQuarantine.applyMapping
    rw [normalizeCodeSeries_map_normCode, List.map_map]
    rfl
  constructor
  · simp only [happ, List.map_map]
    refine List.map_congr_left fun x _ => ?_
    cases x with
    | none => rfl
    | some c =>
      show SplitQuarantine.replaceVal m
          (normCode (SplitQuarantine.replaceVal m (normCode (some c)))) =
        SplitQuarantine.replaceVal m (normCode (some c))
      have hn : normCode (some c) = some (normStr c) := rfl
      rw [hn]
      cases hf : m.find? (fun e => e.1 == normStr c) with
      | none =>
        have h1 : SplitQuarantine.replaceVal m (some (normStr c)) = some (normStr c) := by
          simp [SplitQuarantine.replaceVal, hf]
        rw [h1]
        have h2 : normCode (some (normStr c)) = some (normStr c) := by
          simp [normCode, normStr_idem]
        rw [h2, h1]
      | some p =>
        have hp : p ∈ m := List.mem_of_find?_eq_some hf
        have h1 : SplitQuarantine.replaceVal m (some (normStr c)) = some p.2 := by
          simp [SplitQuarantine.replaceVal, hf]
        rw [h1]
        have h2 : normCode (some p.2) = some p.2 := by
          simp [normCode, hnorm p hp]
        rw [h2]
        cases hf2 : m.find? (fun e => e.1 == p.2) with
        | none => simp [SplitQuarantine.replaceVal, hf2]
        | some q =>
          have hq := hstable p hp q hf2
          simp [SplitQuarantine.replaceVal, hf2, hq]
  · intro c h
    simp [SplitQuarantine.replaceVal, h]

/-- C6 witness: for the single-hop mapping {A→B}, two applications agree with
one, and unmapped codes are fixed points. -/
theorem C6_witness :
    (SplitQuarantine.applyMapping [("A", "B")]
        (SplitQuarantine.applyMapping [("A", "B")] [some "A"]) =
      SplitQuarantine.applyMapping [("A", "B")] [some "A"])
  ∧ ∀ c : String, List.find? (fun e => e.1 == c) [("A", "B")] = none →
      SplitQuarantine.replaceVal [("A", "B")] (some c) = some c :=
  C6_amended [("A", "B")] (by decide)
    (fun p hp q hq => by
      rw [List.mem_singleton] at hp
      subst hp
      have hnone : List.find? (fun e => e.1 == "B") [("A", "B")] = none := by decide
      rw [hnone] at hq
      exact Option.noConfusion hq)
    [some "A"]

/-- C9 counterexample: `load_code_map` in check_integrity.py does NOT drop a
blank `from_code` — normalizing " " keeps it as the key "", and a fact row
whose code is blank (" ") is then rewritten through the mapping. -/
theorem C9_counterexample :
    CheckIntegrity.loadCodeMap [(some " ", some "XYZ")] = [(some "", some "XYZ")]
  ∧ CheckIntegrity.harmonizedCodes [some " "]
      (some (CheckIntegrity.loadCodeMap [(some " ", some "XYZ")])) = [some "XYZ"] := by
  refine ⟨by decide, by decide⟩

/-- C9 amended: `_load_code_map` in split_quarantine.py drops every blank or
null `from_code` — no key of the mapping it builds is blank, and a fact row
whose code is null or blank is never rewritten when that mapping is applied;
construction is total on such rows.  The check_integrity.py loader, by
contrast, keeps a normalized-blank `from_code` as the key `""`. -/
theorem C9_amended (rows : List (Option String × Option String)) (x : Option String)
    (hx : SplitQuarantine.isBlank x = true) :
    (∀ p ∈ SplitQuarantine.loadCodeMap rows, p.1 ≠ "")
  ∧ SplitQuarantine.replaceVal (SplitQuarantine.loadCodeMap rows) (normCode x) =
      normCode x := by
  have hkeys : ∀ p ∈ SplitQuarantine.loadCodeMap rows, p.1 ≠ "" := by
    intro p hp
    unfold SplitQuarantine.loadCodeMap at hp
    have h2 := (List.mem_filter.mp hp).2
    simpa using h2
  refine ⟨hkeys, ?_⟩
  cases x with
  | none => rfl
  | some s =>
    have h2 : (pyStrip s == "") = true := hx
    have hs : pyStrip s = "" := eq_of_beq h2
    have hnorm : normCode (some s) = some "" := by
      show some (normStr s) = some ""
      rw [normStr, hs]
      rfl
    rw [hnorm]
    have hfind : (SplitQuarantine.loadCodeMap rows).find? (fun p => p.1 == "") = none := by
      rw [List.find?_eq_none]
      intro p hp
      simpa using hkeys p hp
    simp [SplitQuarantine.replaceVal, hfind]

/-- C9 witness: for a mapping built from a blank `from_code` row, no key is
blank and a blank fact code passes through unchanged. -/
theorem C9_witness :
    (∀ p ∈ SplitQuarantine.loadCodeMap [(some " ", some "XYZ")], p.1 ≠ "")
  ∧ SplitQuarantine.replaceVal (SplitQuarantine.loadCodeMap [(some " ", some "XYZ")])
      (normCode (some "  ")) = normCode (some "  ") :=
  C9_amended [(some " ", some "XYZ")] (some "  ") (by decide)

theorem keys_dictInsert (m : List (String × String)) (kv : String × String) (k : String) :
    k ∈ (SplitQuarantine.dictInsert m kv).map (fun p => p.1) ↔
      k ∈ m.map (fun p => p.1) ∨ k = kv.1 := by
  unfold SplitQuarantine.dictInsert
  split
  · rename_i hany
    have hkeys : (m.map (fun p => if p.1 == kv.1 then kv else p)).map (fun p => p.1) =
        m.map (fun p => p.1) := by
      rw [List.map_map]
      refine List.map_congr_left fun p _ => ?_
      by_cases h : (p.1 == kv.1) = true
      · simp only [Function.comp, h, if_true]
        exact (eq_of_beq h).symm
      · simp only [Function.comp, h]
        rw [if_neg (by simp [h])]
    rw [hkeys]
    constructor
    · exact Or.inl
    · rintro (h | h)
      · exact h
      · subst h
        rw [List.any_eq_true] at hany
        obtain ⟨p, hp, hpe⟩ := hany
        exact List.mem_map.mpr ⟨p, hp, eq_of_beq hpe⟩
  · rw [List.map_append]
    simp [List.mem_append]

theorem keys_dictOfPairs_aux (l : List (String × String)) (init : List (String × String))
    (k : String) :
    k ∈ (l.foldl SplitQuarantine.dictInsert init).map (fun p => p.1) ↔
      k ∈ init.map (fun p => p.1) ∨ k ∈ l.map (fun p => p.1) := by
  induction l generalizing init with
  | nil => simp
  | cons a l ih =>
    simp only [List.foldl_cons, List.map_cons, List.mem_cons]
    rw [ih, keys_dictInsert]
    tauto

theorem keys_dictOfPairs (l : List (String × String)) (k : String) :
    k ∈ (SplitQuarantine.dictOfPairs l).map (fun p => p.1) ↔ k ∈ l.map (fun p => p.1) := by
  unfold SplitQuarantine.dictOfPairs
  rw [keys_dictOfPairs_aux]
  simp

theorem keys_filter_ne (D : List (String × String)) (k : String) :
    k ∈ (D.filter (fun p => p.1 != "")).map (fun p => p.1) ↔
      k ≠ "" ∧ k ∈ D.map (fun p => p.1) := by
  constructor
  · intro h
    obtain ⟨p, hp, he⟩ := List.mem_map.mp h
    have hf := List.mem_filter.mp hp
    subst he
    exact ⟨by simpa using hf.2, List.mem_map.mpr ⟨p, hf.1, rfl⟩⟩
  · rintro ⟨hne, h⟩
    obtain ⟨p, hp, he⟩ := List.mem_map.mp h
    subst he
    exact List.mem_map.mpr ⟨p, List.mem_filter.mpr ⟨hp, by simpa using hne⟩, rfl⟩

/-- C2 counterexample: on an empty reference table the clean partition is
empty, yet "BOH" still counts as a valid code — `main` hardcodes the
historical delegation into the lookup, so the valid-code set is NOT exactly
the clean partition's codes. -/
theorem C2_counterexample :
    "BOH" ∈ SplitQuarantine.countriesCodes [] ∧
      (SplitQuarantine.splitCountries []).1 = [] := by
  exact ⟨by decide, rfl⟩

/-- C2 amended: the valid-code set consists of exactly the normalized codes of
the clean reference partition PLUS the hardcoded historical code "BOH" — apart
from "BOH", no code outside the clean partition (in particular no code only
carried by quarantined reference rows) ever counts as valid. -/
theorem C2_amended (rows : List SplitQuarantine.CountryRow) (c : String) :
    c ∈ SplitQuarantine.countriesCodes rows ↔
      (c = "BOH" ∨ (c ≠ "" ∧ ∃ t ∈ (SplitQuarantine.splitCountries rows).1,
        (normCode t.1.code).getD "" = c)) := by
  have hrw : SplitQuarantine.countriesCodes rows =
      (SplitQuarantine.dictInsert
        ((SplitQuarantine.dictOfPairs ((SplitQuarantine.splitCountries rows).1.map (fun t =>
          ((normCode t.1.code).getD "", ((t.1.country).map pyStrip).getD "")))).filter
          (fun p => p.1 != "")) ("BOH", "Bohemia")).map (fun p => p.1) := rfl
  rw [hrw, keys_dictInsert, keys_filter_ne, keys_dictOfPairs, List.map_map]
  simp only [Function.comp, List.mem_map]
  constructor
  · rintro (⟨hne, a, ha, hae⟩ | hboh)
    · exact Or.inr ⟨hne, a, ha, hae⟩
    · exact Or.inl hboh
  · rintro (hboh | ⟨hne, a, ha, hae⟩)
    · exact Or.inr hboh
    · exact Or.inl ⟨hne, a, ha, hae⟩

theorem count_split (valid : List String) (l : List (Option String)) :
    (l.filter (fun x => CheckIntegrity.isNullCode x || CheckIntegrity.notInValid valid x)).length =
      l.countP CheckIntegrity.isNullCode +
        l.countP (fun x => !CheckIntegrity.isNullCode x && CheckIntegrity.notInValid valid x) := by
  induction l with
  | nil => rfl
  | cons a l ih =>
    by_cases h1 : CheckIntegrity.isNullCode a = true
    · have h2 : (CheckIntegrity.isNullCode a || CheckIntegrity.notInValid valid a) = true := by
        rw [h1, Bool.true_or]
      have h3 : (!CheckIntegrity.isNullCode a && CheckIntegrity.notInValid valid a) = false := by
        rw [h1, Bool.not_true, Bool.false_and]
      rw [@List.filter_cons_of_pos _
          (fun x => CheckIntegrity.isNullCode x || CheckIntegrity.notInValid valid x) a l h2,
        List.countP_cons_of_pos CheckIntegrity.isNullCode l h1,
        List.countP_cons_of_neg
          (fun x => !CheckIntegrity.isNullCode x && CheckIntegrity.notInValid valid x) l
          (by simp [h3]),
        List.length_cons, ih]
      omega
    · rw [Bool.not_eq_true] at h1
      by_cases h2 : CheckIntegrity.notInValid valid a = true
      · have ho : (CheckIntegrity.isNullCode a || CheckIntegrity.notInValid valid a) = true := by
          rw [h1, h2, Bool.false_or]
        have ha : (!CheckIntegrity.isNullCode a && CheckIntegrity.notInValid valid a) = true := by
          rw [h1, h2, Bool.not_false, Bool.true_and]
        rw [@List.filter_cons_of_pos _
            (fun x => CheckIntegrity.isNullCode x || CheckIntegrity.notInValid valid x) a l ho,
          List.countP_cons_of_neg CheckIntegrity.isNullCode l (by simp [h1]),
          List.countP_cons_of_pos
            (fun x => !CheckIntegrity.isNullCode x && CheckIntegrity.notInValid valid x) l ha,
          List.length_cons, ih]
        omega
      · rw [Bool.not_eq_true] at h2
        have ho : (CheckIntegrity.isNullCode a || CheckIntegrity.notInValid valid a) = false := by
          rw [h1, h2, Bool.false_or]
        have ha : (!CheckIntegrity.isNullCode a && CheckIntegrity.notInValid valid a) = false := by
          rw [h2, Bool.and_false]
        rw [@List.filter_cons_of_neg _
            (fun x => CheckIntegrity.isNullCode x || CheckIntegrity.notInValid valid x) a l
            (by simp [ho]),
          List.countP_cons_of_neg CheckIntegrity.isNullCode l (by simp [h1]),
          List.countP_cons_of_neg
            (fun x => !CheckIntegrity.isNullCode x && CheckIntegrity.notInValid valid x) l
            (by simp [ha]), ih]

/-- C10: the auditor's counters are mutually consistent — `bad_rows_total`
equals `bad_rows_null_code + bad_rows_code_not_in_countries` and equals the
number of returned bad rows: null-code rows and non-null unmatched-code rows
partition the bad rows. -/
theorem C10_bad_row_counters (summer countries : List (Option String))
    (codeMap : Option (List (Option String × Option String))) :
    (CheckIntegrity.findBadCodeRows summer countries codeMap).2.badRowsTotal =
      (CheckIntegrity.findBadCodeRows summer countries codeMap).2.badRowsNullCode +
        (CheckIntegrity.findBadCodeRows summer countries codeMap).2.badRowsCodeNotInCountries
  ∧ (CheckIntegrity.findBadCodeRows summer countries codeMap).2.badRowsTotal =
      (CheckIntegrity.findBadCodeRows summer countries codeMap).1.length := by
  exact ⟨count_split (CheckIntegrity.validCodes countries)
    (CheckIntegrity.harmonizedCodes summer codeMap), rfl⟩

/-- C8, evaluated at the failing input: with a non-empty code map and a single
fact row whose code is null, the harmonized column is unchanged (still the one
null cell), yet `mapped_rows_count` reports 1 — the pandas `!=` comparison
treats NaN as differing from NaN, so an unaltered null-code row is counted as
an actually-altered one. -/
theorem C8_null_row_counted_as_mapped :
    CheckIntegrity.mappedCount [none] (some [(some "SCG", some "SRB")]) = 1
  ∧ CheckIntegrity.harmonizedCodes [none] (some [(some "SCG", some "SRB")]) = [none] := by
  exact ⟨by decide, by decide⟩

theorem filterMap_id_filter_bad (valid : List String) (l : List (Option String)) :
    ((l.filter (fun x => CheckIntegrity.isNullCode x || CheckIntegrity.notInValid valid x)).filterMap id) =
      (l.filterMap id).filter (fun c => !valid.contains c) := by
  induction l with
  | nil => rfl
  | cons a l ih =>
    cases a with
    | none =>
      rw [@List.filter_cons_of_pos _
        (fun x => CheckIntegrity.isNullCode x || CheckIntegrity.notInValid valid x) none l rfl]
      rw [List.filterMap_cons_none (rfl : id (none : Option String) = none),
        List.filterMap_cons_none (rfl : id (none : Option String) = none)]
      exact ih
    | some c =>
      by_cases h : valid.contains c = true
      · have hneg : ¬((fun x => CheckIntegrity.isNullCode x ||
            CheckIntegrity.notInValid valid x) (some c) = true) := by
          show ¬((false || !valid.contains c) = true)
          rw [h]
          exact fun hx => Bool.false_ne_true hx
        rw [@List.filter_cons_of_neg _
            (fun x => CheckIntegrity.isNullCode x || CheckIntegrity.notInValid valid x)
            (some c) l hneg,
          List.filterMap_cons_some (rfl : id (some c) = some c),
          @List.filter_cons_of_neg _ (fun c => !valid.contains c) c (l.filterMap id)
            (by show ¬(!valid.contains c) = true; rw [h]; exact fun hx => Bool.false_ne_true hx)]
        exact ih
      · rw [Bool.not_eq_true] at h
        have hpos : ((fun x => CheckIntegrity.isNullCode x ||
            CheckIntegrity.notInValid valid x) (some c) = true) := by
          show (false || !valid.contains c) = true
          rw [h]
          rfl
        rw [@List.filter_cons_of_pos _
            (fun x => CheckIntegrity.isNullCode x || CheckIntegrity.notInValid valid x)
            (some c) l hpos,
          List.filterMap_cons_some (rfl : id (some c) = some c),
          List.filterMap_cons_some (rfl : id (some c) = some c),
          @List.filter_cons_of_pos _ (fun c => !valid.contains c) c (l.filterMap id)
            (by show (!valid.contains c) = true; rw [h]; rfl)]
        rw [ih]

theorem length_filter_dedup (p : String → Bool) (l : List String) :
    ((l.dedup).filter p).length = ((l.filter p).dedup).length := by
  induction l with
  | nil => rfl
  | cons a l ih =>
    by_cases hm : a ∈ l
    · rw [List.dedup_cons_of_mem hm]
      by_cases hp : p a = true
      · rw [List.filter_cons_of_pos hp, List.dedup_cons_of_mem (List.mem_filter.mpr ⟨hm, hp⟩)]
        exact ih
      · rw [List.filter_cons_of_neg hp]
        exact ih
    · rw [List.dedup_cons_of_not_mem hm]
      by_cases hp : p a = true
      · rw [List.filter_cons_of_pos hp, List.filter_cons_of_pos hp,
          List.dedup_cons_of_not_mem (fun hc => hm (List.mem_filter.mp hc).1),
          List.length_cons, List.length_cons, ih]
      · rw [List.filter_cons_of_neg hp, List.filter_cons_of_neg hp]
        exact ih

theorem strictCount_eq (summer countries : List (Option String))
    (codeMap : Option (List (Option String × Option String))) :
    (CheckIntegrity.findBadCodeRows summer countries codeMap).2.badRowsCodeNotInCountriesStrict =
      strictDistinctUnmatchedCodes summer countries codeMap := by
  show ((((((CheckIntegrity.harmonizedCodes summer codeMap).filter
      (fun x => CheckIntegrity.isNullCode x ||
        CheckIntegrity.notInValid (CheckIntegrity.validCodes countries) x)).filterMap id).dedup).mergeSort
      (fun a b => decide (a ≤ b))).filter
      (fun c => !CheckIntegrity.HISTORICAL_CODE_ALLOWLIST.contains c)).length = _
  have hperm := (List.mergeSort_perm
    ((((CheckIntegrity.harmonizedCodes summer codeMap).filter
      (fun x => CheckIntegrity.isNullCode x ||
        CheckIntegrity.notInValid (CheckIntegrity.validCodes countries) x)).filterMap id).dedup)
    (fun a b => decide (a ≤ b)))
  rw [((hperm.filter (fun c => !CheckIntegrity.HISTORICAL_CODE_ALLOWLIST.contains c)).length_eq)]
  rw [length_filter_dedup, filterMap_id_filter_bad, List.filter_filter]
  unfold strictDistinctUnmatchedCodes
  rw [List.filter_congr (fun c _ => Bool.and_comm
    (!CheckIntegrity.HISTORICAL_CODE_ALLOWLIST.contains c)
    (!(CheckIntegrity.validCodes countries).contains c))]

/-- C4 counterexample: two fact rows share the unmatched code "XYZ" (no
allowlisted code occurs at all), so the lenient count is 2 while the strict
count is 1 — the strict figure counts DISTINCT codes, not rows, and therefore
does not equal the lenient count minus the allowlist contribution (2 - 0). -/
theorem C4_counterexample :
    (CheckIntegrity.findBadCodeRows [some "XYZ", some "XYZ"] [] none).2.badRowsCodeNotInCountries = 2
  ∧ (CheckIntegrity.findBadCodeRows [some "XYZ", some "XYZ"] [] none).2.badRowsCodeNotInCountriesStrict = 1
  ∧ (CheckIntegrity.harmonizedCodes [some "XYZ", some "XYZ"] none).countP
      (fun x => Option.elim x false
        (fun c => CheckIntegrity.HISTORICAL_CODE_ALLOWLIST.contains c)) = 0 := by
  refine ⟨by decide, ?_, by decide⟩
  rw [strictCount_eq]
  decide

/-- C4 amended: `bad_rows_code_not_in_countries_strict` equals the number of
DISTINCT non-null harmonized codes that are unmatched and outside the
historical allowlist (a per-code count, unlike the per-row lenient count);
a fact row whose harmonized code is "BOH" and absent from the reference table
still contributes to the lenient per-row count while "BOH" itself is excluded
from the strict count. -/
theorem C4_amended (summer countries : List (Option String))
    (codeMap : Option (List (Option String × Option String))) :
    (CheckIntegrity.findBadCodeRows summer countries codeMap).2.badRowsCodeNotInCountriesStrict =
      strictDistinctUnmatchedCodes summer countries codeMap
  ∧ ((some "BOH" ∈ CheckIntegrity.harmonizedCodes summer codeMap ∧
        "BOH" ∉ CheckIntegrity.validCodes countries) →
      1 ≤ (CheckIntegrity.findBadCodeRows summer countries codeMap).2.badRowsCodeNotInCountries) := by
  refine ⟨strictCount_eq summer countries codeMap, ?_⟩
  rintro ⟨hmem, hnotin⟩
  have hc : (CheckIntegrity.validCodes countries).contains "BOH" = false := by
    simpa using hnotin
  have hp : (fun x => !CheckIntegrity.isNullCode x &&
      CheckIntegrity.notInValid (CheckIntegrity.validCodes countries) x) (some "BOH") = true := by
    show (!false && !(CheckIntegrity.validCodes countries).contains "BOH") = true
    rw [hc]
    rfl
  exact List.countP_pos_iff.mpr ⟨some "BOH", hmem, hp⟩

/-- C4 witness: a fact table consisting of one "BOH" row against an empty
reference table is counted in the lenient figure. -/
theorem C4_witness :
    1 ≤ (CheckIntegrity.findBadCodeRows [some "BOH"] [] none).2.badRowsCodeNotInCountries :=
  (C4_amended [some "BOH"] [] none).2 (by exact ⟨by decide, by decide⟩)

end OlympicsDQ
